import Mathlib

/-!
Verification of the umbrel-bitcoin backend (settings metadata, schema,
derivation rules, config compiler, bitcoind supervisor, custom options).

Shallow embedding of the TypeScript sources:
- `apps/backend/src/modules/config/config.ts`
- the settings metadata / schema module (`settings.meta.ts` / `settings.schema.ts`)
- `apps/backend/src/modules/bitcoind/manager.ts`

JavaScript numbers are modelled as exact rationals (`Rat`); all arithmetic the
claims exercise (integer defaults/bounds, `prune * 953.674` with `Math.round`)
is exact at the values the schema admits, so no binary floating point artifacts
are observable. Strings are Lean `String`s; `String.data` gives the character
list for reasoning.
-/

/-- JS value universe for settings values and metadata defaults
(`number | boolean | string | string[]` are the shapes that occur). -/
inductive Value where
  | num (q : Rat)
  | bool (b : Bool)
  | str (s : String)
  | strList (l : List String)
  deriving DecidableEq, Repr

/-- `s.startsWith(p)` from JS, modelled on the character list. -/
def jsStartsWith (s p : String) : Bool :=
  p.data.isPrefixOf s.data

/-- `x.includes(v)` on a JS string array. -/
def jsIncludes (l : List String) (v : String) : Bool :=
  l.contains v

/-!
## The validated settings record

`SettingsSchema` (from `settings.schema.ts`, via zod) is a flat record.
Fields are listed in the insertion order of the `settingsMetadata` object
literal in `settings.meta.ts`, which is the `Object.keys` iteration order of
the merged/validated record that `generateBaseConfLines` walks.
UI-only text fields (labels, descriptions, tabs) carry no behaviour and are
not part of the record.
-/
structure SettingsSchema where
  onlynet : List String
  proxy : Bool
  listen : List String
  peerblockfilters : Bool
  blockfilterindex : Bool
  peerbloomfilters : Bool
  bantime : Rat
  maxconnections : Rat
  maxreceivebuffer : Rat
  maxsendbuffer : Rat
  peertimeout : Rat
  timeout : Rat
  maxuploadtarget : Rat
  dbcache : Rat
  prune : Rat
  txindex : Bool
  datacarrier : Bool
  datacarriersize : Rat
  permitbaremultisig : Bool
  rejectparasites : Bool
  rejecttokens : Bool
  permitbarepubkey : Bool
  permitbaredatacarrier : Bool
  datacarriercost : Rat
  acceptnonstddatacarrier : Bool
  maxscriptsize : Rat
  blockmaxsize : Rat
  blockmaxweight : Rat
  blockreconstructionextratxn : Rat
  blockreconstructionextratxnsize : Rat
  coinstatsindex : Bool
  maxmempool : Rat
  blockmintxfee : Rat
  minrelaytxfee : Rat
  incrementalrelayfee : Rat
  mempoolexpiry : Rat
  persistmempool : Bool
  maxorphantx : Rat
  rest : Bool
  rpcworkqueue : Rat
  datum : Bool
  version : String
  chain : String

/-!
## Derivation rules (`applyDerivedSettings`, config.ts lines 62-79)

The source mutates a copy sequentially; we model the three `if` statements as
a composition of three rule functions applied in source order.
-/

/-- Rule 1: if Peer Block Filters is on -> Block Filter Index must also be on. -/
def rulePeerBlockFilters (s : SettingsSchema) : SettingsSchema :=
  if s.peerblockfilters then {s with blockfilterindex := true} else s

/-- Rule 2: if prune > 0 -> txindex must be off. -/
def rulePrune (s : SettingsSchema) : SettingsSchema :=
  if s.prune > 0 then {s with txindex := false} else s

/-- The guard of rule 3: proxy is on but onlynet lacks clearnet or lacks tor. -/
def proxyMustBeDisabled (s : SettingsSchema) : Bool :=
  s.proxy && (!(jsIncludes s.onlynet "clearnet") || !(jsIncludes s.onlynet "tor"))

/-- Rule 3: if proxy is on, but onlynet doesn't include clearnet and tor ->
disable proxy. -/
def ruleProxy (s : SettingsSchema) : SettingsSchema :=
  if proxyMustBeDisabled s then {s with proxy := false} else s

/-- `applyDerivedSettings` from config.ts: the three cross-field rules applied
in source order. -/
def applyDerivedSettings (settings : SettingsSchema) : SettingsSchema :=
  ruleProxy (rulePrune (rulePeerBlockFilters settings))

-- Projection lemmas for the three rules.

theorem rulePeerBlockFilters_proj (s : SettingsSchema) :
    (rulePeerBlockFilters s).onlynet = s.onlynet ∧
    (rulePeerBlockFilters s).proxy = s.proxy ∧
    (rulePeerBlockFilters s).peerblockfilters = s.peerblockfilters ∧
    (rulePeerBlockFilters s).prune = s.prune ∧
    (rulePeerBlockFilters s).txindex = s.txindex := by
  unfold rulePeerBlockFilters; split_ifs <;> exact ⟨rfl, rfl, rfl, rfl, rfl⟩

theorem rulePeerBlockFilters_bfi (s : SettingsSchema) :
    (rulePeerBlockFilters s).blockfilterindex =
      (if s.peerblockfilters then true else s.blockfilterindex) := by
  unfold rulePeerBlockFilters; split_ifs <;> rfl

theorem rulePrune_proj (s : SettingsSchema) :
    (rulePrune s).onlynet = s.onlynet ∧
    (rulePrune s).proxy = s.proxy ∧
    (rulePrune s).peerblockfilters = s.peerblockfilters ∧
    (rulePrune s).prune = s.prune ∧
    (rulePrune s).blockfilterindex = s.blockfilterindex := by
  unfold rulePrune; split_ifs <;> exact ⟨rfl, rfl, rfl, rfl, rfl⟩

theorem rulePrune_txindex (s : SettingsSchema) :
    (rulePrune s).txindex = (if s.prune > 0 then false else s.txindex) := by
  unfold rulePrune; split_ifs <;> rfl

theorem ruleProxy_proj (s : SettingsSchema) :
    (ruleProxy s).onlynet = s.onlynet ∧
    (ruleProxy s).peerblockfilters = s.peerblockfilters ∧
    (ruleProxy s).prune = s.prune ∧
    (ruleProxy s).txindex = s.txindex ∧
    (ruleProxy s).blockfilterindex = s.blockfilterindex := by
  unfold ruleProxy; split_ifs <;> exact ⟨rfl, rfl, rfl, rfl, rfl⟩

theorem ruleProxy_proxy (s : SettingsSchema) :
    (ruleProxy s).proxy = (if proxyMustBeDisabled s then false else s.proxy) := by
  unfold ruleProxy; split_ifs <;> rfl

-- Updating a field to the value it already holds is the identity.

theorem update_bfi_self (s : SettingsSchema) (h : s.blockfilterindex = true) :
    ({s with blockfilterindex := true} : SettingsSchema) = s := by
  cases s; cases h; rfl

theorem update_txindex_self (s : SettingsSchema) (h : s.txindex = false) :
    ({s with txindex := false} : SettingsSchema) = s := by
  cases s; cases h; rfl

-- Each rule is a no-op on the output of the full derivation pass.

theorem ads_peerblockfilters (s : SettingsSchema) :
    (applyDerivedSettings s).peerblockfilters = s.peerblockfilters := by
  unfold applyDerivedSettings
  rw [(ruleProxy_proj _).2.1, (rulePrune_proj _).2.2.1, (rulePeerBlockFilters_proj _).2.2.1]

theorem ads_prune (s : SettingsSchema) :
    (applyDerivedSettings s).prune = s.prune := by
  unfold applyDerivedSettings
  rw [(ruleProxy_proj _).2.2.1, (rulePrune_proj _).2.2.2.1,
    (rulePeerBlockFilters_proj _).2.2.2.1]

theorem ads_bfi (s : SettingsSchema) :
    (applyDerivedSettings s).blockfilterindex =
      (if s.peerblockfilters then true else s.blockfilterindex) := by
  unfold applyDerivedSettings
  rw [(ruleProxy_proj _).2.2.2.2, (rulePrune_proj _).2.2.2.2, rulePeerBlockFilters_bfi]

theorem ads_txindex (s : SettingsSchema) :
    (applyDerivedSettings s).txindex = (if s.prune > 0 then false else s.txindex) := by
  unfold applyDerivedSettings
  rw [(ruleProxy_proj _).2.2.2.1, rulePrune_txindex, (rulePeerBlockFilters_proj _).2.2.2.2,
    (rulePeerBlockFilters_proj _).2.2.2.1]

theorem proxyMustBeDisabled_ads (s : SettingsSchema) :
    proxyMustBeDisabled (applyDerivedSettings s) = false := by
  unfold applyDerivedSettings
  unfold proxyMustBeDisabled
  rw [(ruleProxy_proj _).1, ruleProxy_proxy]
  by_cases hc : proxyMustBeDisabled (rulePrune (rulePeerBlockFilters s)) = true
  · rw [if_pos hc]; rfl
  · rw [if_neg hc]
    exact Bool.eq_false_iff.mpr fun h => hc h

theorem rulePeerBlockFilters_fix (s : SettingsSchema) :
    rulePeerBlockFilters (applyDerivedSettings s) = applyDerivedSettings s := by
  by_cases hp : s.peerblockfilters = true
  · have hpf : (applyDerivedSettings s).peerblockfilters = true :=
      (ads_peerblockfilters s).trans hp
    have hb : (applyDerivedSettings s).blockfilterindex = true := by
      rw [ads_bfi, if_pos hp]
    unfold rulePeerBlockFilters
    rw [if_pos hpf]
    exact update_bfi_self _ hb
  · have hpf : ¬((applyDerivedSettings s).peerblockfilters = true) := by
      rw [ads_peerblockfilters]; exact hp
    unfold rulePeerBlockFilters
    rw [if_neg hpf]

theorem rulePrune_fix (s : SettingsSchema) :
    rulePrune (applyDerivedSettings s) = applyDerivedSettings s := by
  by_cases hp : s.prune > 0
  · have hpr : (applyDerivedSettings s).prune > 0 := by rw [ads_prune]; exact hp
    have ht : (applyDerivedSettings s).txindex = false := by
      rw [ads_txindex, if_pos hp]
    unfold rulePrune
    rw [if_pos hpr]
    exact update_txindex_self _ ht
  · have hpr : ¬((applyDerivedSettings s).prune > 0) := by rw [ads_prune]; exact hp
    unfold rulePrune
    rw [if_neg hpr]

theorem ruleProxy_fix (s : SettingsSchema) :
    ruleProxy (applyDerivedSettings s) = applyDerivedSettings s := by
  unfold ruleProxy
  rw [proxyMustBeDisabled_ads]
  simp

/-- C2: derivation is idempotent — applying `applyDerivedSettings` to its own
output is a no-op. -/
theorem applyDerivedSettings_idem (s : SettingsSchema) :
    applyDerivedSettings (applyDerivedSettings s) = applyDerivedSettings s := by
  show ruleProxy (rulePrune (rulePeerBlockFilters (applyDerivedSettings s)))
      = applyDerivedSettings s
  rw [rulePeerBlockFilters_fix, rulePrune_fix, ruleProxy_fix]

/-- C3: after derivation, a record with proxy on but onlynet missing clearnet
or tor has proxy forced off; peerblockfilters on forces blockfilterindex on;
prune > 0 forces txindex off. -/
theorem applyDerivedSettings_rules (s : SettingsSchema) :
    (s.proxy = true →
      (jsIncludes s.onlynet "clearnet" = false ∨ jsIncludes s.onlynet "tor" = false) →
      (applyDerivedSettings s).proxy = false) ∧
    (s.peerblockfilters = true → (applyDerivedSettings s).blockfilterindex = true) ∧
    (s.prune > 0 → (applyDerivedSettings s).txindex = false) := by
  refine ⟨?_, ?_, ?_⟩
  · intro hp honly
    have hcond : proxyMustBeDisabled (rulePrune (rulePeerBlockFilters s)) = true := by
      unfold proxyMustBeDisabled
      rw [(rulePrune_proj _).2.1, (rulePeerBlockFilters_proj _).2.1,
        (rulePrune_proj _).1, (rulePeerBlockFilters_proj _).1, hp]
      rcases honly with h | h <;> simp [h]
    show (ruleProxy (rulePrune (rulePeerBlockFilters s))).proxy = false
    rw [ruleProxy_proxy, if_pos hcond]
  · intro hp
    rw [ads_bfi, if_pos hp]
  · intro hp
    rw [ads_txindex, if_pos hp]

/-- An example settings record used to witness the derivation claims:
proxy on with onlynet = [tor] only, peerblockfilters on, prune = 2. -/
def sampleDerivationInput : SettingsSchema where
  onlynet := ["tor"]
  proxy := true
  listen := []
  peerblockfilters := true
  blockfilterindex := false
  peerbloomfilters := false
  bantime := 86400
  maxconnections := 125
  maxreceivebuffer := 5000
  maxsendbuffer := 5000
  peertimeout := 60
  timeout := 5000
  maxuploadtarget := 0
  dbcache := 450
  prune := 2
  txindex := true
  datacarrier := true
  datacarriersize := 42
  permitbaremultisig := false
  rejectparasites := true
  rejecttokens := false
  permitbarepubkey := false
  permitbaredatacarrier := false
  datacarriercost := 1
  acceptnonstddatacarrier := false
  maxscriptsize := 1650
  blockmaxsize := 3985000
  blockmaxweight := 3985000
  blockreconstructionextratxn := 32768
  blockreconstructionextratxnsize := 10
  coinstatsindex := false
  maxmempool := 300
  blockmintxfee := 1
  minrelaytxfee := 1
  incrementalrelayfee := 1
  mempoolexpiry := 336
  persistmempool := true
  maxorphantx := 100
  rest := false
  rpcworkqueue := 128
  datum := true
  version := "latest"
  chain := "main"

/-- Witness for C3 at a concrete record: onlynet = [tor] only with proxy on
forces proxy off; peerblockfilters on forces blockfilterindex on; prune = 2
forces txindex off. -/
theorem applyDerivedSettings_rules_witness :
    (applyDerivedSettings sampleDerivationInput).proxy = false ∧
    (applyDerivedSettings sampleDerivationInput).blockfilterindex = true ∧
    (applyDerivedSettings sampleDerivationInput).txindex = false := by
  have h := applyDerivedSettings_rules sampleDerivationInput
  exact ⟨h.1 rfl (Or.inl (by decide)) , h.2.1 rfl, h.2.2 (by norm_num [sampleDerivationInput])⟩

/-!
## Supervisor log ring buffer (`manager.ts` lines 81-85)

`recordLine` pushes the line, then evicts the oldest entry (`shift`) when the
length exceeds `RING_MAX`.
-/

/-- `RING_MAX` from manager.ts. -/
def RING_MAX : Nat := 200

/-- `recordLine`: `if (this.logRing.push(line) > this.RING_MAX) this.logRing.shift()`.
The push appends the line; when the post-push length exceeds `RING_MAX`,
`shift` evicts the first (oldest) element. -/
def recordLine (logRing : List String) (line : String) : List String :=
  if (logRing ++ [line]).length > RING_MAX then (logRing ++ [line]).drop 1
  else logRing ++ [line]

/-- Appending a whole sequence of lines via `recordLine`. -/
def recordLines (logRing : List String) (lines : List String) : List String :=
  lines.foldl recordLine logRing

theorem recordLine_length_le (acc : List String) (a : String) (h : acc.length ≤ RING_MAX) :
    (recordLine acc a).length ≤ RING_MAX := by
  unfold recordLine
  split_ifs with hgt
  · simp only [List.length_drop, List.length_append, List.length_cons, List.length_nil]
    omega
  · simp only [List.length_append, List.length_cons, List.length_nil] at hgt ⊢
    omega

theorem recordLines_eq (lines : List String) :
    ∀ acc : List String, acc.length ≤ RING_MAX →
      recordLines acc lines = (acc ++ lines).drop ((acc ++ lines).length - RING_MAX) := by
  induction lines with
  | nil =>
    intro acc h
    simp only [recordLines, List.foldl_nil, List.append_nil]
    rw [Nat.sub_eq_zero_of_le h, List.drop_zero]
  | cons a ls ih =>
    intro acc h
    show recordLines (recordLine acc a) ls = _
    rw [ih _ (recordLine_length_le acc a h)]
    unfold recordLine
    split_ifs with hgt
    · have h1 : (1 : Nat) ≤ (acc ++ [a]).length := by
        simp only [List.length_append, List.length_cons, List.length_nil]; omega
      rw [← List.drop_append_of_le_length h1, List.drop_drop]
      have hlen : acc.length = RING_MAX := by
        simp only [List.length_append, List.length_cons, List.length_nil] at hgt h
        omega
      have hshape : (acc ++ [a]) ++ ls = acc ++ a :: ls := by
        rw [List.append_assoc, List.singleton_append]
      rw [hshape]
      have hcount : 1 + (((acc ++ a :: ls).drop 1).length - RING_MAX) =
          (acc ++ a :: ls).length - RING_MAX := by
        simp only [List.length_drop, List.length_append, List.length_cons, hlen]
        omega
      rw [hcount]
    · have hshape : (acc ++ [a]) ++ ls = acc ++ a :: ls := by
        rw [List.append_assoc, List.singleton_append]
      rw [hshape]

/-- C7: the log ring buffer has fixed capacity `RING_MAX = 200`, and appending
`200 + k` lines from empty leaves exactly the last `200` lines, in their
original append order (the oldest entry is evicted on each overflowing append). -/
theorem recordLines_ring_capacity (k : Nat) (lines : List String)
    (h : lines.length = 200 + k) :
    RING_MAX = 200 ∧ recordLines [] lines = lines.drop k := by
  refine ⟨rfl, ?_⟩
  have hk : lines.length - RING_MAX = k := by rw [h]; unfold RING_MAX; omega
  rw [recordLines_eq lines [] (by simp), List.nil_append, hk]

/-- Witness for C7: appending 201 concrete lines leaves the last 200. -/
theorem recordLines_ring_capacity_witness :
    recordLines [] (List.replicate 201 "line") = (List.replicate 201 "line").drop 1 :=
  (recordLines_ring_capacity 1 (List.replicate 201 "line") (by rw [List.length_replicate])).2

/-!
## The bitcoind supervisor (`manager.ts`)

`BitcoindManager` state and the `start()` transition. Effects at the moment of
the call (settings file contents, installed binaries, clock, spawned pid,
binary identity after the symlink flip) enter as an explicit environment.
Events emitted on `this.events` are returned alongside the new state.
-/

/-- `versionInfo`: `{implementation, version}`. -/
structure VersionInfo where
  implementation : String
  version : String

/-- `ExitInfo` from `#types`: exit code, signal, bounded log tail, message. -/
structure ExitInfo where
  code : Option Int
  sig : Option String
  logTail : List String
  message : String

/-- Mutable fields of `BitcoindManager`. The child handle is modelled by its
pid. -/
structure ManagerState where
  child : Option Nat
  startedAt : Option Nat
  lastError : Option String
  exitInfo : Option ExitInfo
  versionInfo : VersionInfo
  logRing : List String
  expectingExit : Bool

/-- Events emitted on `this.events` during `start()`. -/
inductive ManagerEvent where
  | start
  | exit (info : ExitInfo)

/-- External world as observed by one `start()` call. -/
structure StartEnv where
  /-- `getVersionFromSettings()` result. -/
  settingsVersion : String
  /-- `isVersionInstalled` (the file-system check). -/
  installed : String → Bool
  /-- `getBinaryVersionInfo()` after the symlink flip. -/
  binaryVersionInfo : VersionInfo
  /-- `Date.now()`. -/
  now : Nat
  /-- pid of the child created by `spawn`. -/
  spawnedPid : Nat

/-- `BITCOIN_KNOTS_VERSIONS_DIR` from `lib/paths.ts`. -/
def BITCOIN_KNOTS_VERSIONS_DIR : String := "/opt/bitcoind"

/-- The not-installed message built in `start()`. -/
def notInstalledMsg (version : String) : String :=
  "Bitcoin Knots version \"" ++ version ++ "\" is not installed (missing: " ++
    BITCOIN_KNOTS_VERSIONS_DIR ++ "/" ++ version ++ "/bitcoind)."

/-- `start()` from manager.ts: early return when a child exists; synthesized
crash-shaped diagnostic when the selected version is not installed; otherwise
flip the symlink, refresh version info, clear the ring, record the start time
and spawn. -/
def startManager (env : StartEnv) (s : ManagerState) : ManagerState × List ManagerEvent :=
  -- return early if already running
  if s.child.isSome then (s, [])
  else
    let version := env.settingsVersion
    if !(env.installed version) then
      let msg := notInstalledMsg version
      let info : ExitInfo := { code := none, sig := none, logTail := [msg], message := msg }
      ({ s with versionInfo := { s.versionInfo with version := version },
                lastError := some msg, exitInfo := some info },
       [ManagerEvent.exit info])
    else
      ({ s with versionInfo := env.binaryVersionInfo, logRing := [],
                startedAt := some env.now, child := some env.spawnedPid,
                lastError := none },
       [ManagerEvent.start])

/-- `status()` result shape. -/
structure ManagerStatus where
  running : Bool
  startedAt : Option Nat
  error : Option String
  pid : Option Nat

/-- `status()` from manager.ts. -/
def managerStatus (s : ManagerState) : ManagerStatus :=
  { running := s.child.isSome, startedAt := s.startedAt, error := s.lastError,
    pid := s.child }

/-- C8: `start()` while a child handle exists is a no-op: the whole state is
unchanged, no events are emitted, and `status()` is unchanged. -/
theorem startManager_running_noop (env : StartEnv) (s : ManagerState) (p : Nat)
    (h : s.child = some p) :
    startManager env s = (s, []) ∧
    managerStatus (startManager env s).1 = managerStatus s := by
  have hs : s.child.isSome = true := by rw [h]; rfl
  constructor
  · unfold startManager; rw [if_pos hs]
  · unfold startManager; rw [if_pos hs]

/-- Witness for C8 at a concrete running state. -/
theorem startManager_running_noop_witness :
    startManager
      { settingsVersion := "v29.2", installed := fun _ => false,
        binaryVersionInfo := ⟨"Bitcoin Knots", "v29.2"⟩, now := 7, spawnedPid := 42 }
      { child := some 41, startedAt := some 3, lastError := none, exitInfo := none,
        versionInfo := ⟨"Bitcoin Knots", "v29.2"⟩, logRing := ["a"], expectingExit := false }
    = ({ child := some 41, startedAt := some 3, lastError := none, exitInfo := none,
         versionInfo := ⟨"Bitcoin Knots", "v29.2"⟩, logRing := ["a"], expectingExit := false }, []) :=
  (startManager_running_noop _ _ 41 rfl).1

/-- C9: `start()` with no child and the resolved version not installed spawns
nothing (the child stays absent and `status().running` is false), synthesizes a
crash-shaped diagnostic with null code and signal whose message names the
missing version, emits exactly that diagnostic, and leaves the start time, ring
buffer and expected-exit flag untouched. -/
theorem startManager_not_installed (env : StartEnv) (s : ManagerState)
    (h1 : s.child = none) (h2 : env.installed env.settingsVersion = false) :
    (startManager env s).1.child = none ∧
    (managerStatus (startManager env s).1).running = false ∧
    (startManager env s).1.exitInfo =
      some { code := none, sig := none,
             logTail := [notInstalledMsg env.settingsVersion],
             message := notInstalledMsg env.settingsVersion } ∧
    notInstalledMsg env.settingsVersion =
      "Bitcoin Knots version \"" ++ env.settingsVersion ++
        ("\" is not installed (missing: " ++ BITCOIN_KNOTS_VERSIONS_DIR ++ "/" ++
          env.settingsVersion ++ "/bitcoind).") ∧
    (startManager env s).2 =
      [ManagerEvent.exit { code := none, sig := none,
                           logTail := [notInstalledMsg env.settingsVersion],
                           message := notInstalledMsg env.settingsVersion }] ∧
    (startManager env s).1.startedAt = s.startedAt ∧
    (startManager env s).1.logRing = s.logRing ∧
    (startManager env s).1.expectingExit = s.expectingExit := by
  have hs : ¬(s.child.isSome = true) := by rw [h1]; simp
  have hinst : (!(env.installed env.settingsVersion)) = true := by rw [h2]; rfl
  unfold startManager
  rw [if_neg hs, if_pos hinst]
  refine ⟨h1, by simp [managerStatus, h1], rfl, ?_, rfl, rfl, rfl, rfl⟩
  apply String.ext
  simp [notInstalledMsg, String.data_append, List.append_assoc]

/-- Witness for C9 at a concrete stopped state with no binary installed. -/
theorem startManager_not_installed_witness :
    (startManager
      { settingsVersion := "v29.1", installed := fun _ => false,
        binaryVersionInfo := ⟨"Bitcoin Knots", "v29.2"⟩, now := 7, spawnedPid := 42 }
      { child := none, startedAt := none, lastError := none, exitInfo := none,
        versionInfo := ⟨"Bitcoin Knots", "v29.2"⟩, logRing := [], expectingExit := false }).1.child
      = none ∧
    notInstalledMsg "v29.1" =
      "Bitcoin Knots version \"v29.1\" is not installed (missing: /opt/bitcoind/v29.1/bitcoind)." := by
  have h := startManager_not_installed
    { settingsVersion := "v29.1", installed := fun _ => false,
      binaryVersionInfo := ⟨"Bitcoin Knots", "v29.2"⟩, now := 7, spawnedPid := 42 }
    { child := none, startedAt := none, lastError := none, exitInfo := none,
      versionInfo := ⟨"Bitcoin Knots", "v29.2"⟩, logRing := [], expectingExit := false }
    rfl rfl
  exact ⟨h.1, by rw [h.2.2.2.1]; rfl⟩

/-!
## Version registry and settings metadata (`settings.meta.ts`)

Versions are ordered newest → oldest; recency is index comparison
(lower index = newer). The `latest` sentinel resolves to index 0.
-/

/-- `AVAILABLE_BITCOIN_KNOTS_VERSIONS` (newest → oldest). -/
def AVAILABLE_BITCOIN_KNOTS_VERSIONS : List String := ["v29.2", "v29.1"]

/-- `DEFAULT_BITCOIN_KNOTS_VERSION` = the newest entry. -/
def DEFAULT_BITCOIN_KNOTS_VERSION : String := "v29.2"

/-- The `latest` sentinel. -/
def LATEST : String := "latest"

/-- `VERSION_CHOICES = [LATEST, ...AVAILABLE_BITCOIN_KNOTS_VERSIONS]`. -/
def VERSION_CHOICES : List String := LATEST :: AVAILABLE_BITCOIN_KNOTS_VERSIONS

/-- `resolveVersion`: `latest` resolves to the default (newest) version. -/
def resolveVersion (desired : String) : String :=
  if desired = LATEST then DEFAULT_BITCOIN_KNOTS_VERSION else desired

/-- `Array.prototype.indexOf`: first index, or `-1` when absent. -/
def jsIndexOf (l : List String) (s : String) : Int :=
  if s ∈ l then (l.indexOf s : Int) else -1

/-- The four settings kinds (`kind` field of `Option` in settings.meta.ts). -/
inductive Kind where
  | number
  | toggle
  | select
  | multi
  deriving DecidableEq, Repr

/-- Behavioural fields of one settings-metadata entry. UI-only text
(tab/label/bitcoinLabel/description/unit and the `disabledWhen`/
`disabledMessage` UI hints) carries no backend behaviour and is omitted.
`options` entries are the `{value, label}` pairs.
`requireAtLeastOne` is kept optional because the schema builder reads it
as `meta.requireAtLeastOne ?? true`. -/
structure OptionMeta where
  kind : Kind
  min : Option Rat := none
  max : Option Rat := none
  step : Option Rat := none
  default : Value
  options : List (String × String) := []
  requireAtLeastOne : Option Bool := none
  deriving DecidableEq, Repr

/-- `VersionOverrides`: optional per-version diffs for rule fields. -/
structure RuleOverrides where
  default : Option Value := none
  min : Option Rat := none
  max : Option Rat := none
  step : Option Rat := none
  options : Option (List (String × String)) := none
  requireAtLeastOne : Option Bool := none
  deriving DecidableEq, Repr

/-- `VersionedOption`: an entry plus optional `introducedIn` (inclusive),
`removedIn` (exclusive) and a per-version override map. -/
structure VersionedOption where
  opt : OptionMeta
  introducedIn : Option String := none
  removedIn : Option String := none
  versionOverrides : List (String × RuleOverrides) := []
  deriving DecidableEq, Repr

/-- The spread `{...value, ...(value.versionOverrides?.[version] ?? {})}`:
override fields that are present replace the base fields. -/
def applyOverrides (o : OptionMeta) (ov : RuleOverrides) : OptionMeta :=
  { kind := o.kind
    min := ov.min <|> o.min
    max := ov.max <|> o.max
    step := ov.step <|> o.step
    default := ov.default.getD o.default
    options := ov.options.getD o.options
    requireAtLeastOne := ov.requireAtLeastOne <|> o.requireAtLeastOne }

/-- The two `continue` guards of `settingsMetadataForVersion`
(`value.introducedIn && versionIdx > indexOf(...)` and
`value.removedIn && versionIdx <= indexOf(...)`; version strings are
non-empty so TS truthiness is presence). -/
def skipEntry (versionIdx : Int) (vo : VersionedOption) : Bool :=
  (match vo.introducedIn with
   | some iv => versionIdx > jsIndexOf AVAILABLE_BITCOIN_KNOTS_VERSIONS iv
   | none => false) ||
  (match vo.removedIn with
   | some rv => versionIdx ≤ jsIndexOf AVAILABLE_BITCOIN_KNOTS_VERSIONS rv
   | none => false)

/-- Merge an entry with its per-version overrides and strip
(`delete`) the versioning keys. -/
def materializeEntry (version : String) (vo : VersionedOption) : VersionedOption :=
  { opt := match vo.versionOverrides.lookup version with
      | some ov => applyOverrides vo.opt ov
      | none => vo.opt
    introducedIn := none
    removedIn := none
    versionOverrides := [] }

/-- The loop body of `settingsMetadataForVersion`, abstracted over the catalog
it iterates (the source iterates `Object.entries(settingsMetadata)`). -/
def settingsMetadataFor (catalog : List (String × VersionedOption)) (version : String) :
    List (String × VersionedOption) :=
  catalog.filterMap fun kv =>
    if skipEntry (jsIndexOf AVAILABLE_BITCOIN_KNOTS_VERSIONS version) kv.2 then none
    else some (kv.1, materializeEntry version kv.2)

/-!
## The concrete settings catalog (`settingsMetadata` in settings.meta.ts)

Entries appear in the insertion order of the source object literal, with the
behavioural rule fields (kind, min/max/step, default, options,
requireAtLeastOne) and the versioning fields. No entry in the current catalog
sets `introducedIn`, `removedIn` or `versionOverrides`.
-/
def settingsMetadata : List (String × VersionedOption) := [
  ("onlynet", { opt := { kind := .multi, options := [("clearnet", "Clearnet"), ("tor", "Tor"), ("i2p", "I2P")], default := .strList ["clearnet", "tor", "i2p"], requireAtLeastOne := some true } }),
  ("proxy", { opt := { kind := .toggle, default := .bool false } }),
  ("listen", { opt := { kind := .multi, options := [("clearnet", "Clearnet"), ("tor", "Tor"), ("i2p", "I2P")], default := .strList [], requireAtLeastOne := some false } }),
  ("peerblockfilters", { opt := { kind := .toggle, default := .bool true } }),
  ("blockfilterindex", { opt := { kind := .toggle, default := .bool true } }),
  ("peerbloomfilters", { opt := { kind := .toggle, default := .bool false } }),
  ("bantime", { opt := { kind := .number, step := some 1, default := .num 86400 } }),
  ("maxconnections", { opt := { kind := .number, step := some 1, default := .num 125 } }),
  ("maxreceivebuffer", { opt := { kind := .number, step := some 1, default := .num 5000 } }),
  ("maxsendbuffer", { opt := { kind := .number, step := some 1, default := .num 5000 } }),
  ("peertimeout", { opt := { kind := .number, step := some 1, min := some 1, default := .num 60 } }),
  ("timeout", { opt := { kind := .number, step := some 1, min := some 1, default := .num 5000 } }),
  ("maxuploadtarget", { opt := { kind := .number, min := some 0, step := some 1, default := .num 0 } }),
  ("dbcache", { opt := { kind := .number, min := some 4, step := some 1, default := .num 450 } }),
  ("prune", { opt := { kind := .number, default := .num 0, step := some 1, min := some 0 } }),
  ("txindex", { opt := { kind := .toggle, default := .bool true } }),
  ("datacarrier", { opt := { kind := .toggle, default := .bool true } }),
  ("datacarriersize", { opt := { kind := .number, default := .num 42 } }),
  ("permitbaremultisig", { opt := { kind := .toggle, default := .bool false } }),
  ("rejectparasites", { opt := { kind := .toggle, default := .bool true } }),
  ("rejecttokens", { opt := { kind := .toggle, default := .bool false } }),
  ("permitbarepubkey", { opt := { kind := .toggle, default := .bool false } }),
  ("permitbaredatacarrier", { opt := { kind := .toggle, default := .bool false } }),
  ("datacarriercost", { opt := { kind := .number, default := .num 1 } }),
  ("acceptnonstddatacarrier", { opt := { kind := .toggle, default := .bool false } }),
  ("maxscriptsize", { opt := { kind := .number, default := .num 1650 } }),
  ("blockmaxsize", { opt := { kind := .number, default := .num 3985000 } }),
  ("blockmaxweight", { opt := { kind := .number, default := .num 3985000 } }),
  ("blockreconstructionextratxn", { opt := { kind := .number, default := .num 32768 } }),
  ("blockreconstructionextratxnsize", { opt := { kind := .number, default := .num 10 } }),
  ("coinstatsindex", { opt := { kind := .toggle, default := .bool false } }),
  ("maxmempool", { opt := { kind := .number, default := .num 300 } }),
  ("blockmintxfee", { opt := { kind := .number, default := .num 1, min := some 0, max := some 2100000000000, step := some (Rat.mk' 1 1000 (by decide) (by decide)) } }),
  ("minrelaytxfee", { opt := { kind := .number, default := .num 1, min := some 0, max := some 2100000000000, step := some 1 } }),
  ("incrementalrelayfee", { opt := { kind := .number, default := .num 1, min := some 0, max := some 2100000000000, step := some (Rat.mk' 1 1000 (by decide) (by decide)) } }),
  ("mempoolexpiry", { opt := { kind := .number, step := some 1, default := .num 336 } }),
  ("persistmempool", { opt := { kind := .toggle, default := .bool true } }),
  ("maxorphantx", { opt := { kind := .number, step := some 1, default := .num 100 } }),
  ("rest", { opt := { kind := .toggle, default := .bool false } }),
  ("rpcworkqueue", { opt := { kind := .number, step := some 1, min := some 1, default := .num 128 } }),
  ("datum", { opt := { kind := .toggle, default := .bool true } }),
  ("version", { opt := { kind := .select, options := [("latest", "Always use the latest version"), ("v29.2", "v29.2"), ("v29.1", "v29.1")], default := .str "latest" } }),
  ("chain", { opt := { kind := .select, options := [("main", "Mainnet"), ("test", "Testnet3"), ("testnet4", "Testnet4"), ("signet", "Signet"), ("regtest", "Regtest")], default := .str "main" } })]

/-- `settingsMetadataForVersion` applied to the concrete catalog. -/
def settingsMetadataForVersion (version : String) : List (String × VersionedOption) :=
  settingsMetadataFor settingsMetadata version

/-- `DefaultValuesForVersion`: `.default` of every materialized entry. -/
def DefaultValuesForVersion (version : String) : List (String × Value) :=
  (settingsMetadataForVersion version).map fun kv => (kv.1, kv.2.opt.default)

/-!
## The validator (`buildSettingsSchema` in settings.schema.ts)

One zod validator per kind: number (integer iff step is absent or an integer,
inclusive min/max), toggle (boolean), multi (array over the option values,
non-empty unless `requireAtLeastOne ?? true` is false), select (enum over the
option values). Unknown keys pass through (`.passthrough()`), so validation of
a record only constrains the keys present in the metadata.
-/

/-- `Number.isInteger` on our exact-rational model of JS numbers. -/
def jsIsInteger (q : Rat) : Bool := q.den = 1

/-- `const stepImpliesInteger = meta.step === undefined || Number.isInteger(meta.step)`. -/
def stepImpliesInteger (step : Option Rat) : Bool :=
  match step with
  | none => true
  | some st => jsIsInteger st

/-- Does one value parse under the zod validator built for one entry? -/
def valueValid (meta : OptionMeta) (v : Value) : Bool :=
  match meta.kind with
  | .number =>
    match v with
    | .num q =>
      (if stepImpliesInteger meta.step then jsIsInteger q else true) &&
      (match meta.min with | some m => decide (m ≤ q) | none => true) &&
      (match meta.max with | some m => decide (q ≤ m) | none => true)
    | _ => false
  | .toggle =>
    match v with
    | .bool _ => true
    | _ => false
  | .multi =>
    match v with
    | .strList l =>
      l.all (fun x => (meta.options.map Prod.fst).contains x) &&
      (if meta.requireAtLeastOne.getD true then !l.isEmpty else true)
    | _ => false
  | .select =>
    match v with
    | .str s => (meta.options.map Prod.fst).contains s
    | _ => false

/-- `z.object(schemaMap).passthrough().parse(record)` succeeds: every key in
the metadata is present in the record and its value parses under that key's
validator (extra keys pass through unchecked). -/
def recordValidates (metadata : List (String × VersionedOption))
    (record : List (String × Value)) : Bool :=
  metadata.all fun kv =>
    match record.lookup kv.1 with
    | some v => valueValid kv.2.opt v
    | none => false

/-- C4: for every supported version choice, the defaults record parses under
that version's validator — number defaults are in bounds and integral when
required, toggle defaults are booleans, multi defaults are drawn from the
allowed values and non-empty when required, select defaults are allowed. -/
theorem defaults_validate (v : String) (hv : v ∈ VERSION_CHOICES) :
    recordValidates (settingsMetadataForVersion (resolveVersion v))
      (DefaultValuesForVersion (resolveVersion v)) = true := by
  fin_cases hv <;> decide

/-- Witness for C4 at the `latest` choice. -/
theorem defaults_validate_witness :
    recordValidates (settingsMetadataForVersion (resolveVersion "latest"))
      (DefaultValuesForVersion (resolveVersion "latest")) = true :=
  defaults_validate "latest" (by decide)

/-!
## C1: materialization per version

Spec-side reference definitions, written from the specification text
("skip if `introducedIn` is newer than the target or `removedIn` is at or
before the target, compared by index in the newest-first list; shallow-merge
override fields over base fields; strip the version-bound fields"), to be
compared against the source-side `settingsMetadataFor` pipeline.
-/

/-- Spec-side skip condition: the entry's `introducedIn` is newer than `v`
(strictly lower index in the newest-first list) or its `removedIn` is at or
before `v` (index at least that of `v`). -/
def specSkip (v : String) (vo : VersionedOption) : Bool :=
  (match vo.introducedIn with
   | some iv => decide (AVAILABLE_BITCOIN_KNOTS_VERSIONS.indexOf iv <
       AVAILABLE_BITCOIN_KNOTS_VERSIONS.indexOf v)
   | none => false) ||
  (match vo.removedIn with
   | some rv => decide (AVAILABLE_BITCOIN_KNOTS_VERSIONS.indexOf v ≤
       AVAILABLE_BITCOIN_KNOTS_VERSIONS.indexOf rv)
   | none => false)

/-- Spec-side shallow merge: each override field that is present replaces the
base field. -/
def specOverridden (base : OptionMeta) (ov : RuleOverrides) : OptionMeta :=
  { kind := base.kind
    min := match ov.min with | some m => some m | none => base.min
    max := match ov.max with | some m => some m | none => base.max
    step := match ov.step with | some st => some st | none => base.step
    default := match ov.default with | some d => d | none => base.default
    options := match ov.options with | some os => os | none => base.options
    requireAtLeastOne := match ov.requireAtLeastOne with
      | some r => some r
      | none => base.requireAtLeastOne }

/-- Spec-side materialized entry: base shallow-merged with the per-version
overrides for `v`, with the version-bound fields absent. -/
def specMergedEntry (v : String) (vo : VersionedOption) : VersionedOption :=
  { opt := match vo.versionOverrides.lookup v with
      | some ov => specOverridden vo.opt ov
      | none => vo.opt
    introducedIn := none
    removedIn := none
    versionOverrides := [] }

/-- Well-formedness of a catalog as guaranteed by the TS types: version
markers, when present, are drawn from the supported-version list. -/
def catalogWellFormed (catalog : List (String × VersionedOption)) : Bool :=
  catalog.all fun kv =>
    (match kv.2.introducedIn with
     | some iv => AVAILABLE_BITCOIN_KNOTS_VERSIONS.contains iv
     | none => true) &&
    (match kv.2.removedIn with
     | some rv => AVAILABLE_BITCOIN_KNOTS_VERSIONS.contains rv
     | none => true)

theorem jsIndexOf_of_mem {l : List String} {s : String} (h : s ∈ l) :
    jsIndexOf l s = (l.indexOf s : Int) := by
  unfold jsIndexOf; rw [if_pos h]

theorem skipEntry_eq_specSkip (v : String) (vo : VersionedOption)
    (hv : v ∈ AVAILABLE_BITCOIN_KNOTS_VERSIONS)
    (hintro : ∀ iv, vo.introducedIn = some iv → iv ∈ AVAILABLE_BITCOIN_KNOTS_VERSIONS)
    (hrem : ∀ rv, vo.removedIn = some rv → rv ∈ AVAILABLE_BITCOIN_KNOTS_VERSIONS) :
    skipEntry (jsIndexOf AVAILABLE_BITCOIN_KNOTS_VERSIONS v) vo = specSkip v vo := by
  unfold skipEntry specSkip
  congr 1
  · cases hi : vo.introducedIn with
    | none => rfl
    | some iv =>
      show decide (jsIndexOf AVAILABLE_BITCOIN_KNOTS_VERSIONS v >
            jsIndexOf AVAILABLE_BITCOIN_KNOTS_VERSIONS iv) =
          decide (AVAILABLE_BITCOIN_KNOTS_VERSIONS.indexOf iv <
            AVAILABLE_BITCOIN_KNOTS_VERSIONS.indexOf v)
      rw [jsIndexOf_of_mem hv, jsIndexOf_of_mem (hintro iv hi), decide_eq_decide]
      exact Int.ofNat_lt
  · cases hr : vo.removedIn with
    | none => rfl
    | some rv =>
      show decide (jsIndexOf AVAILABLE_BITCOIN_KNOTS_VERSIONS v ≤
            jsIndexOf AVAILABLE_BITCOIN_KNOTS_VERSIONS rv) =
          decide (AVAILABLE_BITCOIN_KNOTS_VERSIONS.indexOf v ≤
            AVAILABLE_BITCOIN_KNOTS_VERSIONS.indexOf rv)
      rw [jsIndexOf_of_mem hv, jsIndexOf_of_mem (hrem rv hr), decide_eq_decide]
      exact Int.ofNat_le

theorem materializeEntry_eq_spec (v : String) (vo : VersionedOption) :
    materializeEntry v vo = specMergedEntry v vo := by
  unfold materializeEntry specMergedEntry
  cases vo.versionOverrides.lookup v with
  | none => rfl
  | some ov =>
    cases ov with
    | mk d mn mx st os r =>
      unfold applyOverrides specOverridden
      cases d <;> cases mn <;> cases mx <;> cases st <;> cases os <;> cases r <;> rfl

theorem keyLookup_unique {α : Type _} :
    ∀ (l : List (String × α)), (l.map Prod.fst).Nodup →
      ∀ (k : String) (a b : α), (k, a) ∈ l → (k, b) ∈ l → a = b := by
  intro l
  induction l with
  | nil => intro _ k a b ha; exact absurd ha (List.not_mem_nil _)
  | cons hd t ih =>
    intro hnd k a b ha hb
    rw [List.map_cons, List.nodup_cons] at hnd
    rcases List.mem_cons.mp ha with ha0 | ha1 <;> rcases List.mem_cons.mp hb with hb0 | hb1
    · exact ((Prod.mk.injEq k a k b).mp (ha0.trans hb0.symm)).2
    · refine absurd ?_ hnd.1
      have hk : hd.1 = k := by rw [← ha0]
      rw [hk]
      exact List.mem_map_of_mem Prod.fst hb1
    · refine absurd ?_ hnd.1
      have hk : hd.1 = k := by rw [← hb0]
      rw [hk]
      exact List.mem_map_of_mem Prod.fst ha1
    · exact ih hnd.2 k a b ha1 hb1

theorem catalogWellFormed_spec (catalog : List (String × VersionedOption))
    (h : catalogWellFormed catalog = true) :
    ∀ kv ∈ catalog,
      (∀ iv, kv.2.introducedIn = some iv → iv ∈ AVAILABLE_BITCOIN_KNOTS_VERSIONS) ∧
      (∀ rv, kv.2.removedIn = some rv → rv ∈ AVAILABLE_BITCOIN_KNOTS_VERSIONS) := by
  intro kv hkv
  have hb := List.all_eq_true.mp h kv hkv
  rw [Bool.and_eq_true] at hb
  constructor
  · intro iv hiv
    have h1 := hb.1
    rw [hiv] at h1
    simpa using h1
  · intro rv hrv
    have h1 := hb.2
    rw [hrv] at h1
    simpa using h1

/-- C1: for a supported version `v`, the materializer omits a catalog entry
exactly when its `introducedIn` is newer than `v` or its `removedIn` is at or
before `v` (index comparison in the newest-first list); every kept entry is
the base entry shallow-merged with its per-version overrides for `v`; and no
output entry carries `introducedIn`, `removedIn` or `versionOverrides`.
`settingsMetadataForVersion` is this materializer applied to the repository's
catalog. -/
theorem settingsMetadataFor_spec
    (catalog : List (String × VersionedOption)) (v : String)
    (hv : v ∈ AVAILABLE_BITCOIN_KNOTS_VERSIONS)
    (hkeys : (catalog.map Prod.fst).Nodup)
    (hwf : catalogWellFormed catalog = true) :
    (∀ kv ∈ catalog,
      ((∀ e, (kv.1, e) ∉ settingsMetadataFor catalog v) ↔ specSkip v kv.2 = true) ∧
      (specSkip v kv.2 = false →
        (kv.1, specMergedEntry v kv.2) ∈ settingsMetadataFor catalog v)) ∧
    (∀ kv ∈ settingsMetadataFor catalog v,
      kv.2.introducedIn = none ∧ kv.2.removedIn = none ∧ kv.2.versionOverrides = []) ∧
    settingsMetadataForVersion v = settingsMetadataFor settingsMetadata v := by
  have keep : ∀ kv ∈ catalog, specSkip v kv.2 = false →
      (kv.1, specMergedEntry v kv.2) ∈ settingsMetadataFor catalog v := by
    intro kv hkv hs
    obtain ⟨hintro, hrem⟩ := catalogWellFormed_spec catalog hwf kv hkv
    have hskip := skipEntry_eq_specSkip v kv.2 hv hintro hrem
    apply List.mem_filterMap.mpr
    refine ⟨kv, hkv, ?_⟩
    rw [if_neg (by rw [hskip, hs]; exact Bool.false_ne_true), materializeEntry_eq_spec]
  refine ⟨?_, ?_, rfl⟩
  · intro kv hkv
    obtain ⟨hintro, hrem⟩ := catalogWellFormed_spec catalog hwf kv hkv
    have hskip := skipEntry_eq_specSkip v kv.2 hv hintro hrem
    constructor
    · constructor
      · intro hnone
        by_contra hfalse
        have hsf : specSkip v kv.2 = false := by
          cases hb : specSkip v kv.2
          · rfl
          · exact absurd hb hfalse
        exact hnone (specMergedEntry v kv.2) (keep kv hkv hsf)
      · intro hs e he
        obtain ⟨a, ha, hfa⟩ := List.mem_filterMap.mp he
        obtain ⟨ak, av⟩ := a
        by_cases hca : skipEntry (jsIndexOf AVAILABLE_BITCOIN_KNOTS_VERSIONS v) av = true
        · rw [if_pos hca] at hfa
          exact Option.noConfusion hfa
        · rw [if_neg hca] at hfa
          have hpair := Option.some.inj hfa
          have hk : ak = kv.1 := congrArg Prod.fst hpair
          rw [hk] at ha
          have hav : av = kv.2 := keyLookup_unique catalog hkeys kv.1 av kv.2 ha hkv
          rw [hav, hskip, hs] at hca
          exact hca rfl
    · exact keep kv hkv
  · intro kv hkv
    obtain ⟨a, ha, hfa⟩ := List.mem_filterMap.mp hkv
    by_cases hca : skipEntry (jsIndexOf AVAILABLE_BITCOIN_KNOTS_VERSIONS v) a.2 = true
    · rw [if_pos hca] at hfa
      exact Option.noConfusion hfa
    · rw [if_neg hca] at hfa
      have h2 : kv.2 = materializeEntry v a.2 :=
        (congrArg Prod.snd (Option.some.inj hfa)).symm
      rw [h2]
      exact ⟨rfl, rfl, rfl⟩

/-- Demo entries exercising both version gating and overrides, used to witness
the materialization theorem. -/
def demoOpt : OptionMeta := { kind := Kind.number, default := Value.num 5 }

def demoGated : VersionedOption := { opt := demoOpt, introducedIn := some "v29.2" }

def demoTweaked : VersionedOption :=
  { opt := demoOpt, versionOverrides := [("v29.1", { default := some (Value.num 7) })] }

def demoCatalog : List (String × VersionedOption) :=
  [("gated", demoGated), ("tweaked", demoTweaked)]

/-- Witness for C1: for v29.1, an entry introduced in v29.2 is omitted, and a
plain entry is kept with its v29.1 override merged in. -/
theorem settingsMetadataFor_spec_witness :
    (∀ e, ("gated", e) ∉ settingsMetadataFor demoCatalog "v29.1") ∧
    ("tweaked", specMergedEntry "v29.1" demoTweaked) ∈
      settingsMetadataFor demoCatalog "v29.1" := by
  have h := settingsMetadataFor_spec demoCatalog "v29.1" (by decide) (by decide) (by decide)
  refine ⟨(h.1 ("gated", demoGated) ?_).1.mpr (by decide), (h.1 ("tweaked", demoTweaked) ?_).2 (by decide)⟩
  · exact List.Mem.head _
  · exact List.Mem.tail _ (List.Mem.head _)

/-!
## Config compiler (`generateBaseConfLines`/`generateConfLines`, config.ts)

Environment variables enter as an explicit record; a missing variable renders
as `"undefined"` inside a template literal, `||` falls back on empty strings
too, and `if (process.env[k])` is JS truthiness. The `rpcauth` salt and HMAC
digest are injected randomness, passed in as part of the environment record.
-/

/-- Template-literal interpolation of a possibly-undefined env var. -/
def envStr (o : Option String) : String := o.getD "undefined"

/-- `process.env[k] || fallback` (an empty string is falsy). -/
def envOr (o : Option String) (fallback : String) : String :=
  match o with
  | some s => if s = "" then fallback else s
  | none => fallback

/-- JS truthiness of an env var. -/
def envTruthy (o : Option String) : Bool :=
  match o with
  | some s => !(s == "")
  | none => false

/-- The environment consumed by the config compiler. -/
structure ConfEnv where
  TOR_HOST : Option String
  TOR_SOCKS_PORT : Option String
  TOR_CONTROL_PORT : Option String
  TOR_CONTROL_PASSWORD : Option String
  I2P_HOST : Option String
  I2P_SAM_PORT : Option String
  APPS_SUBNET : Option String
  ZMQ_RAWBLOCK_PORT : Option String
  ZMQ_RAWTX_PORT : Option String
  ZMQ_HASHBLOCK_PORT : Option String
  ZMQ_SEQUENCE_PORT : Option String
  ZMQ_HASHTX_PORT : Option String
  P2P_PORT : Option String
  P2P_WHITEBIND_PORT : Option String
  BITCOIND_IP : Option String
  TOR_PORT : Option String
  RPC_PORT : Option String
  RPC_USER : Option String
  /-- `randomBytes(16).toString('hex')` drawn for this run. -/
  rpcSalt : String
  /-- `createHmac('sha256', salt).update(rpcPass).digest('hex')` for this run. -/
  rpcHash : String

/-- Rendering of a JS number in a template literal. Integral values render
exactly as JS renders them; for non-integral values the shortest-round-trip
double rendering is abstracted by the `Rat` rendering (no behaviour in the
code, and no claim, inspects a non-integral rendering: the two fee keys are
re-rendered by `handleFeeRateConversion` before output). -/
def jsNumToString (q : Rat) : String :=
  if q.den = 1 then toString q.num else toString q

/-- `(enabled : boolean) ? 1 : 0` rendering used for toggles and listen flags. -/
def flag (b : Bool) : String := if b then "1" else "0"

/-- The `onlynet` expansion map (`clearnet` expands to one line per IP
family); unmapped values expand to nothing. -/
def onlynetLinesFor (n : String) : List String :=
  if n = "clearnet" then ["onlynet=ipv4", "onlynet=ipv6"]
  else if n = "tor" then ["onlynet=onion"]
  else if n = "i2p" then ["onlynet=i2p"]
  else []

/-- Base-pass lines for the record keys before `prune`, in record order:
the `onlynet` expansion, the `proxy` toggle, the `listen` special case, then
one `key=value` line per key. -/
def basePreLines (s : SettingsSchema) : List String :=
  (s.onlynet.map onlynetLinesFor).flatten ++
  ["proxy=" ++ flag s.proxy] ++
  ["listen=1",
   "listenonion=" ++ flag (jsIncludes s.listen "tor"),
   "i2pacceptincoming=" ++ flag (jsIncludes s.listen "i2p")] ++
  ["peerblockfilters=" ++ flag s.peerblockfilters,
   "blockfilterindex=" ++ flag s.blockfilterindex,
   "peerbloomfilters=" ++ flag s.peerbloomfilters,
   "bantime=" ++ jsNumToString s.bantime,
   "maxconnections=" ++ jsNumToString s.maxconnections,
   "maxreceivebuffer=" ++ jsNumToString s.maxreceivebuffer,
   "maxsendbuffer=" ++ jsNumToString s.maxsendbuffer,
   "peertimeout=" ++ jsNumToString s.peertimeout,
   "timeout=" ++ jsNumToString s.timeout,
   "maxuploadtarget=" ++ jsNumToString s.maxuploadtarget,
   "dbcache=" ++ jsNumToString s.dbcache]

/-- Base-pass lines for the record keys after `prune`, in record order.
The `datum` case body pushes its notification line when enabled and then
falls through (no `break`) into the default boolean case, so `datum=0|1` is
always emitted as well. The `version` key is in `NON_BITCOIN_CONF_KEYS` and
is skipped. -/
def basePostLines (s : SettingsSchema) : List String :=
  ["txindex=" ++ flag s.txindex,
   "datacarrier=" ++ flag s.datacarrier,
   "datacarriersize=" ++ jsNumToString s.datacarriersize,
   "permitbaremultisig=" ++ flag s.permitbaremultisig,
   "rejectparasites=" ++ flag s.rejectparasites,
   "rejecttokens=" ++ flag s.rejecttokens,
   "permitbarepubkey=" ++ flag s.permitbarepubkey,
   "permitbaredatacarrier=" ++ flag s.permitbaredatacarrier,
   "datacarriercost=" ++ jsNumToString s.datacarriercost,
   "acceptnonstddatacarrier=" ++ flag s.acceptnonstddatacarrier,
   "maxscriptsize=" ++ jsNumToString s.maxscriptsize,
   "blockmaxsize=" ++ jsNumToString s.blockmaxsize,
   "blockmaxweight=" ++ jsNumToString s.blockmaxweight,
   "blockreconstructionextratxn=" ++ jsNumToString s.blockreconstructionextratxn,
   "blockreconstructionextratxnsize=" ++ jsNumToString s.blockreconstructionextratxnsize,
   "coinstatsindex=" ++ flag s.coinstatsindex,
   "maxmempool=" ++ jsNumToString s.maxmempool,
   "blockmintxfee=" ++ jsNumToString s.blockmintxfee,
   "minrelaytxfee=" ++ jsNumToString s.minrelaytxfee,
   "incrementalrelayfee=" ++ jsNumToString s.incrementalrelayfee,
   "mempoolexpiry=" ++ jsNumToString s.mempoolexpiry,
   "persistmempool=" ++ flag s.persistmempool,
   "maxorphantx=" ++ jsNumToString s.maxorphantx,
   "rest=" ++ flag s.rest,
   "rpcworkqueue=" ++ jsNumToString s.rpcworkqueue] ++
  ((if s.datum then ["blocknotify=curl -s -m 5 http://datum_datum_1:21000/NOTIFY"] else []) ++
   ["datum=" ++ flag s.datum]) ++
  ["chain=" ++ s.chain]

/-- `generateBaseConfLines`: one pass over the record keys in order
(split around the `prune` entry for the proofs below). -/
def generateBaseConfLines (s : SettingsSchema) : List String :=
  basePreLines s ++ ["prune=" ++ jsNumToString s.prune] ++ basePostLines s

/-- `handleTorProxy`: drop any `proxy=` line, re-add `proxy=<host>:<port>`
when the proxy toggle is on. -/
def handleTorProxy (env : ConfEnv) (lines : List String) (s : SettingsSchema) : List String :=
  if s.proxy then
    (lines.filter fun line => !(jsStartsWith line "proxy=")) ++
      ["proxy=" ++ envStr env.TOR_HOST ++ ":" ++ envStr env.TOR_SOCKS_PORT]
  else
    lines.filter fun line => !(jsStartsWith line "proxy=")

/-- First half of `handleTor`: the `onion=` reachability line. -/
def handleTorOnion (env : ConfEnv) (lines : List String) (s : SettingsSchema) : List String :=
  if jsIncludes s.onlynet "tor" || jsIncludes s.listen "tor" then
    (lines.filter fun l => !(jsStartsWith l "onion=")) ++
      ["onion=" ++ envStr env.TOR_HOST ++ ":" ++ envStr env.TOR_SOCKS_PORT]
  else lines

/-- Second half of `handleTor`: control-port and password lines when
listening on tor. -/
def handleTorControl (env : ConfEnv) (lines : List String) (s : SettingsSchema) : List String :=
  if jsIncludes s.listen "tor" then
    (lines.filter fun l => !(jsStartsWith l "torcontrol=")) ++
      ["torcontrol=" ++ envStr env.TOR_HOST ++ ":" ++ envStr env.TOR_CONTROL_PORT,
       "torpassword=" ++ envStr env.TOR_CONTROL_PASSWORD]
  else lines

/-- `handleTor`: the two sequential rewrites. -/
def handleTor (env : ConfEnv) (lines : List String) (s : SettingsSchema) : List String :=
  handleTorControl env (handleTorOnion env lines s) s

/-- `handleI2P`. -/
def handleI2P (env : ConfEnv) (lines : List String) (s : SettingsSchema) : List String :=
  if jsIncludes s.onlynet "i2p" || jsIncludes s.listen "i2p" then
    (lines.filter fun l => !(jsStartsWith l "i2psam=")) ++
      ["i2psam=" ++ envStr env.I2P_HOST ++ ":" ++ envStr env.I2P_SAM_PORT]
  else lines

/-- `Math.round` (floor of x + 1/2, exactly JS behaviour on our rationals). -/
def jsMathRound (q : Rat) : Int := ⌊q + mkRat 1 2⌋

/-- The GB → MiB factor `953.674` of `handlePruneConversion`, as the exact
rational 953674/1000. -/
def mibPerGB : Rat := mkRat 953674 1000

/-- `handlePruneConversion`: when prune > 0, drop any `prune=` line and
re-add the converted value `Math.round(prune * 953.674)`. -/
def handlePruneConversion (lines : List String) (s : SettingsSchema) : List String :=
  if s.prune > 0 then
    (lines.filter fun l => !(jsStartsWith l "prune=")) ++
      ["prune=" ++ toString (jsMathRound (s.prune * mibPerGB))]
  else lines

/-- `(satPerVb * 1e-5).toFixed(8)`: exact conversion then fixed-point
rendering with 8 digits (the schema admits only non-negative fee rates, for
which this is JS `toFixed` exactly). -/
def toFixed8 (q : Rat) : String :=
  let n : Int := ⌊q * 100000000 + mkRat 1 2⌋
  let frac := (n % 100000000).toNat
  let ds := toString frac
  toString (n / 100000000) ++ "." ++ String.mk (List.replicate (8 - ds.length) '0') ++ ds

/-- `convertSatPerVbToBtcPerKb`. -/
def convertSatPerVbToBtcPerKb (satPerVb : Rat) : String :=
  toFixed8 (satPerVb * mkRat 1 100000)

/-- `handleFeeRateConversion`: drop both fee lines, re-add the converted
values (the two fields are always numbers in a validated record, so both
`typeof === 'number'` guards hold). -/
def handleFeeRateConversion (lines : List String) (s : SettingsSchema) : List String :=
  (lines.filter fun l =>
      !(jsStartsWith l "minrelaytxfee=") && !(jsStartsWith l "blockmintxfee=")) ++
    ["minrelaytxfee=" ++ convertSatPerVbToBtcPerKb s.minrelaytxfee,
     "blockmintxfee=" ++ convertSatPerVbToBtcPerKb s.blockmintxfee]

/-- `appendRpcAllowIps`. -/
def appendRpcAllowIps (env : ConfEnv) (lines : List String) : List String :=
  (if envTruthy env.APPS_SUBNET then lines ++ ["rpcallowip=" ++ envStr env.APPS_SUBNET]
   else lines) ++ ["rpcallowip=127.0.0.1"]

/-- `appendZmqPubs`. -/
def appendZmqPubs (env : ConfEnv) (lines : List String) : List String :=
  lines ++
    ["zmqpubrawblock=tcp://0.0.0.0:" ++ envOr env.ZMQ_RAWBLOCK_PORT "28332",
     "zmqpubrawtx=tcp://0.0.0.0:" ++ envOr env.ZMQ_RAWTX_PORT "28333",
     "zmqpubhashblock=tcp://0.0.0.0:" ++ envOr env.ZMQ_HASHBLOCK_PORT "28334",
     "zmqpubsequence=tcp://0.0.0.0:" ++ envOr env.ZMQ_SEQUENCE_PORT "28335",
     "zmqpubhashtx=tcp://0.0.0.0:" ++ envOr env.ZMQ_HASHTX_PORT "28336"]

/-- `appendRpcAuth`: `rpcauth=<user>:<salt>$<hmac-digest>`. -/
def appendRpcAuth (env : ConfEnv) (lines : List String) : List String :=
  lines ++ ["rpcauth=" ++ envOr env.RPC_USER "umbrel" ++ ":" ++ env.rpcSalt ++ "$" ++ env.rpcHash]

/-- `appendNetworkStanza`: blank spacer, `[chain]` header, p2p/tor binds and
rpc binds (`chain` is always present in a validated record, so the
`?? 'main'` fallback never fires). -/
def appendNetworkStanza (env : ConfEnv) (lines : List String) (s : SettingsSchema) : List String :=
  lines ++
  ["", "[" ++ s.chain ++ "]",
   "port=" ++ envOr env.P2P_PORT "8333",
   "bind=0.0.0.0:" ++ envOr env.P2P_PORT "8333"] ++
  (if envTruthy env.P2P_WHITEBIND_PORT
   then ["whitebind=0.0.0.0:" ++ envStr env.P2P_WHITEBIND_PORT] else []) ++
  ["bind=" ++ envStr env.BITCOIND_IP ++ ":" ++ envOr env.TOR_PORT "8334" ++ "=onion",
   "rpcport=" ++ envOr env.RPC_PORT "8332",
   "rpcbind=" ++ envStr env.BITCOIND_IP,
   "rpcbind=127.0.0.1"]

/-- `generateConfLines`: the full pipeline in source order. -/
def generateConfLines (env : ConfEnv) (s : SettingsSchema) : List String :=
  appendNetworkStanza env
    (appendRpcAuth env
      (appendZmqPubs env
        (appendRpcAllowIps env
          (handleFeeRateConversion
            (handlePruneConversion
              (handleI2P env
                (handleTor env
                  (handleTorProxy env (generateBaseConfLines s) s)
                  s)
                s)
              s)
            s))))
    s

/-!
## Prefix reasoning helpers

`prefixClash p l = false` means `p` mismatches `l` within `l`'s length, so
`p` is a prefix neither of `l` nor of any extension `l ++ x`.
-/

def prefixClash (p l : List Char) : Bool :=
  match p, l with
  | [], _ => true
  | _ :: _, [] => true
  | a :: p', b :: l' => a == b && prefixClash p' l'

theorem not_prefix_of_append {p : List Char} :
    ∀ {l : List Char}, prefixClash p l = false → ∀ x, p.isPrefixOf (l ++ x) = false := by
  induction p with
  | nil => intro l h; exact absurd h (by simp [prefixClash])
  | cons a p' ih =>
    intro l h x
    cases l with
    | nil => exact absurd h (by simp [prefixClash])
    | cons b l' =>
      simp only [prefixClash, Bool.and_eq_false_iff] at h
      rw [List.cons_append]
      show (a == b && p'.isPrefixOf (l' ++ x)) = false
      rcases h with h | h
      · rw [h, Bool.false_and]
      · rw [ih h x, Bool.and_false]

theorem not_prefix_both {p : List Char} :
    ∀ {q l : List Char}, prefixClash p q = false →
      p.isPrefixOf l = true → q.isPrefixOf l = false := by
  induction p with
  | nil => intro q l h; exact absurd h (by simp [prefixClash])
  | cons a p' ih =>
    intro q l h hp
    cases q with
    | nil => exact absurd h (by simp [prefixClash])
    | cons b q' =>
      cases l with
      | nil => exact absurd hp (by simp [List.isPrefixOf])
      | cons c l' =>
        simp only [prefixClash, Bool.and_eq_false_iff] at h
        have hp2 : (a == c) = true ∧ p'.isPrefixOf l' = true := by
          simpa [List.isPrefixOf, Bool.and_eq_true] using hp
        show (b == c && q'.isPrefixOf l') = false
        rcases h with h | h
        · have hac : a = c := by simpa using hp2.1
          have hab : ¬(a = b) := by simpa using h
          have : (b == c) = false := by
            rw [← hac]; exact beq_false_of_ne fun hba => hab hba.symm
          rw [this, Bool.false_and]
        · rw [ih h hp2.2, Bool.and_false]

theorem jsStartsWith_lit_append {p lit : String} (h : prefixClash p.data lit.data = false)
    (x : String) : jsStartsWith (lit ++ x) p = false := by
  unfold jsStartsWith
  rw [String.data_append]
  exact not_prefix_of_append h x.data

theorem jsStartsWith_lit_false {p lit : String} (h : prefixClash p.data lit.data = false) :
    jsStartsWith lit p = false := by
  unfold jsStartsWith
  have h2 := not_prefix_of_append h []
  rwa [List.append_nil] at h2

theorem jsStartsWith_self_append (p x : String) : jsStartsWith (p ++ x) p = true := by
  unfold jsStartsWith
  rw [String.data_append, List.isPrefixOf_iff_prefix]
  exact List.prefix_append _ _

theorem jsStartsWith_excl {p q : String} (h : prefixClash p.data q.data = false) {l : String}
    (hl : jsStartsWith l p = true) : jsStartsWith l q = false :=
  not_prefix_both h hl

theorem notP_append {p lit : String} (h : prefixClash p.data lit.data = false) (x : String) :
    (!(jsStartsWith (lit ++ x) p)) = true := by
  rw [jsStartsWith_lit_append h]; rfl

theorem notP_lit {p lit : String} (h : prefixClash p.data lit.data = false) :
    (!(jsStartsWith lit p)) = true := by
  rw [jsStartsWith_lit_false h]; rfl

theorem filter_eq_nil_of_all {p : String → Bool} {l : List String}
    (h : l.all (fun a => !(p a)) = true) : l.filter p = [] :=
  List.filter_eq_nil_iff.mpr fun a ha hpa => by
    have h2 := List.all_eq_true.mp h a ha
    rw [hpa] at h2
    exact Bool.noConfusion h2

theorem filter_keep_of_imp {f q : String → Bool} (l : List String)
    (h : ∀ a, f a = true → q a = true) :
    (l.filter q).filter f = l.filter f := by
  show List.filter f (List.filter q l) = List.filter f l
  rw [List.filter_comm]
  exact List.filter_eq_self.mpr fun a ha => h a (List.of_mem_filter ha)

theorem filter_not_self (f : String → Bool) (l : List String) :
    (l.filter (fun a => !(f a))).filter f = [] :=
  List.filter_eq_nil_iff.mpr fun a ha hfa => by
    have h2 := List.of_mem_filter ha
    rw [hfa] at h2
    exact Bool.noConfusion h2

/-!
## Line-shape facts for the config compiler
-/

/-- The literal prefixes (or whole literal lines) the base pass can emit
before the `prune` entry. -/
def basePreLits : List String :=
  ["onlynet=ipv4", "onlynet=ipv6", "onlynet=onion", "onlynet=i2p", "proxy=", "listen=1",
   "listenonion=", "i2pacceptincoming=", "peerblockfilters=", "blockfilterindex=",
   "peerbloomfilters=", "bantime=", "maxconnections=", "maxreceivebuffer=", "maxsendbuffer=",
   "peertimeout=", "timeout=", "maxuploadtarget=", "dbcache="]

/-- The literal prefixes (or whole literal lines) the base pass can emit
after the `prune` entry. -/
def basePostLits : List String :=
  ["txindex=", "datacarrier=", "datacarriersize=", "permitbaremultisig=", "rejectparasites=",
   "rejecttokens=", "permitbarepubkey=", "permitbaredatacarrier=", "datacarriercost=",
   "acceptnonstddatacarrier=", "maxscriptsize=", "blockmaxsize=", "blockmaxweight=",
   "blockreconstructionextratxn=", "blockreconstructionextratxnsize=", "coinstatsindex=",
   "maxmempool=", "blockmintxfee=", "minrelaytxfee=", "incrementalrelayfee=", "mempoolexpiry=",
   "persistmempool=", "maxorphantx=", "rest=", "rpcworkqueue=",
   "blocknotify=curl -s -m 5 http://datum_datum_1:21000/NOTIFY", "datum=", "chain="]

theorem onlynet_flatten_all_not {p : String} (nets : List String)
    (h1 : prefixClash p.data "onlynet=ipv4".data = false)
    (h2 : prefixClash p.data "onlynet=ipv6".data = false)
    (h3 : prefixClash p.data "onlynet=onion".data = false)
    (h4 : prefixClash p.data "onlynet=i2p".data = false) :
    ((nets.map onlynetLinesFor).flatten).all (fun l => !(jsStartsWith l p)) = true := by
  induction nets with
  | nil => rfl
  | cons n t ih =>
    simp only [List.map_cons, List.flatten_cons, List.all_append, ih, Bool.and_true]
    unfold onlynetLinesFor
    split_ifs <;>
      simp [List.all_cons, List.all_nil, notP_lit h1, notP_lit h2, notP_lit h3, notP_lit h4]

theorem basePreLines_all_not (s : SettingsSchema) {p : String}
    (hall : ∀ lit ∈ basePreLits, prefixClash p.data lit.data = false) :
    (basePreLines s).all (fun l => !(jsStartsWith l p)) = true := by
  unfold basePreLines
  simp only [List.all_append, List.all_cons, List.all_nil, Bool.and_eq_true, Bool.and_true]
  repeat' apply And.intro
  all_goals
    first
      | exact onlynet_flatten_all_not s.onlynet (hall _ (by decide)) (hall _ (by decide))
          (hall _ (by decide)) (hall _ (by decide))
      | (apply notP_append
         exact hall _ (by decide))
      | (apply notP_lit
         exact hall _ (by decide))

theorem basePostLines_all_not (s : SettingsSchema) {p : String}
    (hall : ∀ lit ∈ basePostLits, prefixClash p.data lit.data = false) :
    (basePostLines s).all (fun l => !(jsStartsWith l p)) = true := by
  unfold basePostLines
  simp only [List.all_append, List.all_cons, List.all_nil, Bool.and_eq_true, Bool.and_true]
  repeat' apply And.intro
  all_goals try split_ifs
  all_goals try simp only [List.all_cons, List.all_nil, Bool.and_eq_true, Bool.and_true,
    List.all_eq_true]
  all_goals
    first
      | (apply notP_append
         exact hall _ (by decide))
      | (apply notP_lit
         exact hall _ (by decide))

theorem strAppend_assoc (a b c : String) : (a ++ b) ++ c = a ++ (b ++ c) :=
  String.ext (by simp [String.data_append, List.append_assoc])

/-!
## C6: the prune directive

We track `filter (startsWith "prune=")` through every stage of the pipeline.
-/

theorem filter_prune_removal (Q : String) (hq : prefixClash "prune=".data Q.data = false)
    (lines : List String) :
    (lines.filter (fun l => !(jsStartsWith l Q))).filter (fun l => jsStartsWith l "prune=") =
      lines.filter (fun l => jsStartsWith l "prune=") :=
  filter_keep_of_imp lines (fun a ha => by rw [jsStartsWith_excl hq ha]; rfl)

theorem filter_prune_append_none (lines A : List String)
    (hA : A.all (fun l => !(jsStartsWith l "prune=")) = true) :
    ((lines ++ A).filter (fun l => jsStartsWith l "prune=")) =
      lines.filter (fun l => jsStartsWith l "prune=") := by
  rw [List.filter_append, filter_eq_nil_of_all hA, List.append_nil]

theorem generateBaseConfLines_filter_prune (s : SettingsSchema) :
    (generateBaseConfLines s).filter (fun l => jsStartsWith l "prune=") =
      ["prune=" ++ jsNumToString s.prune] := by
  unfold generateBaseConfLines
  rw [List.filter_append, List.filter_append]
  rw [filter_eq_nil_of_all (basePreLines_all_not s (by decide)),
    filter_eq_nil_of_all (basePostLines_all_not s (by decide))]
  simp [List.filter_cons, jsStartsWith_self_append]

theorem handleTorProxy_filter_prune (env : ConfEnv) (lines : List String) (s : SettingsSchema) :
    (handleTorProxy env lines s).filter (fun l => jsStartsWith l "prune=") =
      lines.filter (fun l => jsStartsWith l "prune=") := by
  unfold handleTorProxy
  split_ifs
  · rw [filter_prune_append_none _ _ (by
      simp only [List.all_cons, List.all_nil, Bool.and_true, strAppend_assoc]
      exact notP_append (by decide) _)]
    exact filter_prune_removal "proxy=" (by decide) lines
  · exact filter_prune_removal "proxy=" (by decide) lines

theorem handleTorOnion_filter_prune (env : ConfEnv) (lines : List String) (s : SettingsSchema) :
    (handleTorOnion env lines s).filter (fun l => jsStartsWith l "prune=") =
      lines.filter (fun l => jsStartsWith l "prune=") := by
  unfold handleTorOnion
  split_ifs
  · rw [filter_prune_append_none _ _ (by
      simp only [List.all_cons, List.all_nil, Bool.and_true, strAppend_assoc]
      exact notP_append (by decide) _)]
    exact filter_prune_removal "onion=" (by decide) lines
  · rfl

theorem handleTorControl_filter_prune (env : ConfEnv) (lines : List String) (s : SettingsSchema) :
    (handleTorControl env lines s).filter (fun l => jsStartsWith l "prune=") =
      lines.filter (fun l => jsStartsWith l "prune=") := by
  unfold handleTorControl
  split_ifs
  · rw [filter_prune_append_none _ _ (by
      simp only [List.all_cons, List.all_nil, Bool.and_eq_true, Bool.and_true, strAppend_assoc]
      exact ⟨notP_append (by decide) _, notP_append (by decide) _⟩)]
    exact filter_prune_removal "torcontrol=" (by decide) lines
  · rfl

theorem handleTor_filter_prune (env : ConfEnv) (lines : List String) (s : SettingsSchema) :
    (handleTor env lines s).filter (fun l => jsStartsWith l "prune=") =
      lines.filter (fun l => jsStartsWith l "prune=") := by
  unfold handleTor
  rw [handleTorControl_filter_prune, handleTorOnion_filter_prune]

theorem handleI2P_filter_prune (env : ConfEnv) (lines : List String) (s : SettingsSchema) :
    (handleI2P env lines s).filter (fun l => jsStartsWith l "prune=") =
      lines.filter (fun l => jsStartsWith l "prune=") := by
  unfold handleI2P
  split_ifs
  · rw [filter_prune_append_none _ _ (by
      simp only [List.all_cons, List.all_nil, Bool.and_true, strAppend_assoc]
      exact notP_append (by decide) _)]
    exact filter_prune_removal "i2psam=" (by decide) lines
  · rfl

theorem handleFeeRateConversion_filter_prune (lines : List String) (s : SettingsSchema) :
    (handleFeeRateConversion lines s).filter (fun l => jsStartsWith l "prune=") =
      lines.filter (fun l => jsStartsWith l "prune=") := by
  unfold handleFeeRateConversion
  rw [filter_prune_append_none _ _ (by
    simp only [List.all_cons, List.all_nil, Bool.and_eq_true, Bool.and_true, strAppend_assoc]
    exact ⟨notP_append (by decide) _, notP_append (by decide) _⟩)]
  exact filter_keep_of_imp lines (fun a ha => by
    rw [jsStartsWith_excl (by decide) ha, jsStartsWith_excl (by decide) ha]; rfl)

theorem appendRpcAllowIps_filter_prune (env : ConfEnv) (lines : List String) :
    (appendRpcAllowIps env lines).filter (fun l => jsStartsWith l "prune=") =
      lines.filter (fun l => jsStartsWith l "prune=") := by
  unfold appendRpcAllowIps
  split_ifs
  · rw [filter_prune_append_none _ _ (by decide),
      filter_prune_append_none _ _ (by
        simp only [List.all_cons, List.all_nil, Bool.and_true, strAppend_assoc]
        exact notP_append (by decide) _)]
  · exact filter_prune_append_none _ _ (by decide)

theorem appendZmqPubs_filter_prune (env : ConfEnv) (lines : List String) :
    (appendZmqPubs env lines).filter (fun l => jsStartsWith l "prune=") =
      lines.filter (fun l => jsStartsWith l "prune=") := by
  unfold appendZmqPubs
  rw [filter_prune_append_none _ _ (by
    simp only [List.all_cons, List.all_nil, Bool.and_eq_true, Bool.and_true, strAppend_assoc]
    exact ⟨notP_append (by decide) _, notP_append (by decide) _, notP_append (by decide) _,
      notP_append (by decide) _, notP_append (by decide) _⟩)]

theorem appendRpcAuth_filter_prune (env : ConfEnv) (lines : List String) :
    (appendRpcAuth env lines).filter (fun l => jsStartsWith l "prune=") =
      lines.filter (fun l => jsStartsWith l "prune=") := by
  unfold appendRpcAuth
  rw [filter_prune_append_none _ _ (by
    simp only [List.all_cons, List.all_nil, Bool.and_true, strAppend_assoc]
    exact notP_append (by decide) _)]

theorem appendNetworkStanza_filter_prune (env : ConfEnv) (lines : List String)
    (s : SettingsSchema) :
    (appendNetworkStanza env lines s).filter (fun l => jsStartsWith l "prune=") =
      lines.filter (fun l => jsStartsWith l "prune=") := by
  unfold appendNetworkStanza
  rw [filter_prune_append_none _ _ (by
    simp only [List.all_cons, List.all_nil, Bool.and_eq_true, Bool.and_true, strAppend_assoc]
    refine ⟨notP_append (by decide) _, notP_append (by decide) _,
      notP_append (by decide) _, by decide⟩)]
  rw [filter_prune_append_none _ _ (by
    split_ifs
    · simp only [List.all_cons, List.all_nil, Bool.and_true, strAppend_assoc]
      exact notP_append (by decide) _
    · rfl)]
  rw [filter_prune_append_none _ _ (by
    simp only [List.all_cons, List.all_nil, Bool.and_eq_true, Bool.and_true, strAppend_assoc]
    refine ⟨by decide, notP_append (by decide) _, notP_append (by decide) _,
      notP_append (by decide) _⟩)]

/-- C6: for every settings record with prune > 0 and any environment, the
generated directive list contains exactly one `prune=` directive, whose value
is the external prune value times 953.674, rounded to the nearest integer. -/
theorem generateConfLines_prune (env : ConfEnv) (s : SettingsSchema) (h : s.prune > 0) :
    (generateConfLines env s).filter (fun l => jsStartsWith l "prune=") =
      ["prune=" ++ toString (jsMathRound (s.prune * mibPerGB))] ∧
    mibPerGB = (953.674 : Rat) := by
  constructor
  · unfold generateConfLines
    rw [appendNetworkStanza_filter_prune, appendRpcAuth_filter_prune,
      appendZmqPubs_filter_prune, appendRpcAllowIps_filter_prune,
      handleFeeRateConversion_filter_prune]
    unfold handlePruneConversion
    rw [if_pos h, List.filter_append,
      filter_not_self (fun l => jsStartsWith l "prune=") _, List.nil_append]
    simp [List.filter_cons, jsStartsWith_self_append]
  · norm_num [mibPerGB]

/-!
## C5: the version key is never emitted
-/

/-- Every line of the list avoids the `version=` prefix. -/
def allNotVersion (l : List String) : Prop :=
  l.all (fun x => !(jsStartsWith x "version=")) = true

theorem allNotVersion_filter {l : List String} (q : String → Bool) (h : allNotVersion l) :
    allNotVersion (l.filter q) :=
  List.all_eq_true.mpr fun a ha => List.all_eq_true.mp h a (List.mem_of_mem_filter ha)

theorem allNotVersion_append {l A : List String} (h : allNotVersion l) (hA : allNotVersion A) :
    allNotVersion (l ++ A) := by
  unfold allNotVersion at *
  rw [List.all_append, h, hA]
  rfl

theorem generateBaseConfLines_allNotVersion (s : SettingsSchema) :
    allNotVersion (generateBaseConfLines s) := by
  unfold allNotVersion generateBaseConfLines
  simp only [List.all_append, Bool.and_eq_true, List.all_cons, List.all_nil, Bool.and_true]
  exact ⟨⟨basePreLines_all_not s (by decide), notP_append (by decide) _⟩,
    basePostLines_all_not s (by decide)⟩

theorem handleTorProxy_allNotVersion (env : ConfEnv) {lines : List String} (s : SettingsSchema)
    (h : allNotVersion lines) : allNotVersion (handleTorProxy env lines s) := by
  unfold handleTorProxy
  split_ifs
  · refine allNotVersion_append (allNotVersion_filter _ h) ?_
    unfold allNotVersion
    simp only [List.all_cons, List.all_nil, Bool.and_true, strAppend_assoc]
    exact notP_append (by decide) _
  · exact allNotVersion_filter _ h

theorem handleTorOnion_allNotVersion (env : ConfEnv) {lines : List String} (s : SettingsSchema)
    (h : allNotVersion lines) : allNotVersion (handleTorOnion env lines s) := by
  unfold handleTorOnion
  split_ifs
  · refine allNotVersion_append (allNotVersion_filter _ h) ?_
    unfold allNotVersion
    simp only [List.all_cons, List.all_nil, Bool.and_true, strAppend_assoc]
    exact notP_append (by decide) _
  · exact h

theorem handleTorControl_allNotVersion (env : ConfEnv) {lines : List String} (s : SettingsSchema)
    (h : allNotVersion lines) : allNotVersion (handleTorControl env lines s) := by
  unfold handleTorControl
  split_ifs
  · refine allNotVersion_append (allNotVersion_filter _ h) ?_
    unfold allNotVersion
    simp only [List.all_cons, List.all_nil, Bool.and_eq_true, Bool.and_true, strAppend_assoc]
    exact ⟨notP_append (by decide) _, notP_append (by decide) _⟩
  · exact h

theorem handleI2P_allNotVersion (env : ConfEnv) {lines : List String} (s : SettingsSchema)
    (h : allNotVersion lines) : allNotVersion (handleI2P env lines s) := by
  unfold handleI2P
  split_ifs
  · refine allNotVersion_append (allNotVersion_filter _ h) ?_
    unfold allNotVersion
    simp only [List.all_cons, List.all_nil, Bool.and_true, strAppend_assoc]
    exact notP_append (by decide) _
  · exact h

theorem handlePruneConversion_allNotVersion {lines : List String} (s : SettingsSchema)
    (h : allNotVersion lines) : allNotVersion (handlePruneConversion lines s) := by
  unfold handlePruneConversion
  split_ifs
  · refine allNotVersion_append (allNotVersion_filter _ h) ?_
    unfold allNotVersion
    simp only [List.all_cons, List.all_nil, Bool.and_true]
    exact notP_append (by decide) _
  · exact h

theorem handleFeeRateConversion_allNotVersion {lines : List String} (s : SettingsSchema)
    (h : allNotVersion lines) : allNotVersion (handleFeeRateConversion lines s) := by
  unfold handleFeeRateConversion
  refine allNotVersion_append (allNotVersion_filter _ h) ?_
  unfold allNotVersion
  simp only [List.all_cons, List.all_nil, Bool.and_eq_true, Bool.and_true]
  exact ⟨notP_append (by decide) _, notP_append (by decide) _⟩

theorem appendRpcAllowIps_allNotVersion (env : ConfEnv) {lines : List String}
    (h : allNotVersion lines) : allNotVersion (appendRpcAllowIps env lines) := by
  unfold appendRpcAllowIps
  split_ifs
  · refine allNotVersion_append (allNotVersion_append h ?_) (by unfold allNotVersion; decide)
    unfold allNotVersion
    simp only [List.all_cons, List.all_nil, Bool.and_true]
    exact notP_append (by decide) _
  · exact allNotVersion_append h (by unfold allNotVersion; decide)

theorem appendZmqPubs_allNotVersion (env : ConfEnv) {lines : List String}
    (h : allNotVersion lines) : allNotVersion (appendZmqPubs env lines) := by
  unfold appendZmqPubs
  refine allNotVersion_append h ?_
  unfold allNotVersion
  simp only [List.all_cons, List.all_nil, Bool.and_eq_true, Bool.and_true, strAppend_assoc]
  exact ⟨notP_append (by decide) _, notP_append (by decide) _, notP_append (by decide) _,
    notP_append (by decide) _, notP_append (by decide) _⟩

theorem appendRpcAuth_allNotVersion (env : ConfEnv) {lines : List String}
    (h : allNotVersion lines) : allNotVersion (appendRpcAuth env lines) := by
  unfold appendRpcAuth
  refine allNotVersion_append h ?_
  unfold allNotVersion
  simp only [List.all_cons, List.all_nil, Bool.and_true, strAppend_assoc]
  exact notP_append (by decide) _

theorem appendNetworkStanza_allNotVersion (env : ConfEnv) {lines : List String}
    (s : SettingsSchema) (h : allNotVersion lines) :
    allNotVersion (appendNetworkStanza env lines s) := by
  unfold appendNetworkStanza
  refine allNotVersion_append (allNotVersion_append (allNotVersion_append h ?_) ?_) ?_
  · unfold allNotVersion
    simp only [List.all_cons, List.all_nil, Bool.and_eq_true, Bool.and_true, strAppend_assoc]
    exact ⟨by decide, notP_append (by decide) _, notP_append (by decide) _,
      notP_append (by decide) _⟩
  · split_ifs
    · unfold allNotVersion
      simp only [List.all_cons, List.all_nil, Bool.and_true, strAppend_assoc]
      exact notP_append (by decide) _
    · exact rfl
  · unfold allNotVersion
    simp only [List.all_cons, List.all_nil, Bool.and_eq_true, Bool.and_true, strAppend_assoc]
    exact ⟨notP_append (by decide) _, notP_append (by decide) _, notP_append (by decide) _,
      by decide⟩

/-- C5: no line of the generated directive list — base pass, post-passes or
fixed tail — begins with `version=`. -/
theorem generateConfLines_no_version (env : ConfEnv) (s : SettingsSchema) :
    ∀ line ∈ generateConfLines env s, jsStartsWith line "version=" = false := by
  have hfinal : allNotVersion (generateConfLines env s) := by
    unfold generateConfLines
    exact appendNetworkStanza_allNotVersion env s
      (appendRpcAuth_allNotVersion env
        (appendZmqPubs_allNotVersion env
          (appendRpcAllowIps_allNotVersion env
            (handleFeeRateConversion_allNotVersion s
              (handlePruneConversion_allNotVersion s
                (handleI2P_allNotVersion env s
                  (handleTorControl_allNotVersion env s
                    (handleTorOnion_allNotVersion env s
                      (handleTorProxy_allNotVersion env s
                        (generateBaseConfLines_allNotVersion s))))))))))
  intro line hline
  have h2 := List.all_eq_true.mp hfinal line hline
  simpa using h2

/-- A fully-populated environment for concrete evaluation of the compiler. -/
def sampleConfEnv : ConfEnv :=
  { TOR_HOST := some "10.21.22.10", TOR_SOCKS_PORT := some "9050",
    TOR_CONTROL_PORT := some "29051", TOR_CONTROL_PASSWORD := some "pw",
    I2P_HOST := some "10.21.22.11", I2P_SAM_PORT := some "7656",
    APPS_SUBNET := some "10.21.0.0/16", ZMQ_RAWBLOCK_PORT := some "28332",
    ZMQ_RAWTX_PORT := some "28333", ZMQ_HASHBLOCK_PORT := some "28334",
    ZMQ_SEQUENCE_PORT := some "28335", ZMQ_HASHTX_PORT := some "28336",
    P2P_PORT := some "8333", P2P_WHITEBIND_PORT := none,
    BITCOIND_IP := some "10.21.21.8", TOR_PORT := some "8334",
    RPC_PORT := some "8332", RPC_USER := some "umbrel",
    rpcSalt := "00112233445566778899aabbccddeeff", rpcHash := "deadbeef" }

unseal Rat.mul Rat.add in
/-- Witness for C6: with prune = 2 the single emitted prune directive is
`prune=1907` (= round(2 × 953.674)). -/
theorem generateConfLines_prune_witness :
    (generateConfLines sampleConfEnv sampleDerivationInput).filter
        (fun l => jsStartsWith l "prune=") = ["prune=1907"] := by
  have h := generateConfLines_prune sampleConfEnv sampleDerivationInput (by decide)
  rw [h.1]
  decide

unseal Rat.mul Rat.add in
/-- Witness for C5: a line of the concretely generated list, checked not to
start with `version=`. -/
theorem generateConfLines_no_version_witness :
    jsStartsWith "listen=1" "version=" = false :=
  generateConfLines_no_version sampleConfEnv sampleDerivationInput "listen=1" (by decide)

/-!
## Custom options (`getCustomOptions` / `updateCustomOptions`, config.ts)

File contents are passed explicitly: `updateCustomOptions` returns the new
`bitcoin.conf` contents together with its return value, and
`getCustomOptions` reads contents. String surgery is modelled on the
character list.
-/

/-- `includeconf=${path.basename(UMBREL_BITCOIN_CONF)}`. -/
def BITCOIN_CONF_INCLUDE_LINE : String := "includeconf=umbrel-bitcoin.conf"

/-- The two banner lines joined with a newline. -/
def BITCOIN_CONF_BANNER : String :=
  "# Load additional configuration file, relative to the data directory.\n" ++
    BITCOIN_CONF_INCLUDE_LINE

/-- `.replace(/\r\n/g, '\n')`: left-to-right, non-overlapping. -/
def replaceCrLf : List Char → List Char
  | [] => []
  | '\r' :: '\n' :: rest => '\n' :: replaceCrLf rest
  | c :: rest => c :: replaceCrLf rest

/-- The JS whitespace characters that `trimEnd` strips (the ASCII ones plus
NBSP and the BOM; other Unicode space separators do not occur in config
text). -/
def isJsWhitespace (c : Char) : Bool :=
  c == ' ' || c == '\t' || c == '\n' || c == '\r' || c == '\x0b' || c == '\x0c' ||
    c == ' ' || c == '﻿'

/-- `String.prototype.trimEnd`. -/
def jsTrimEnd (l : List Char) : List Char :=
  (l.reverse.dropWhile isJsWhitespace).reverse

/-- `rawText.replace(/\r\n/g, '\n').trimEnd()` — the `userLines`
normalization of `updateCustomOptions`. -/
def normalizeUserLines (rawText : String) : String :=
  String.mk (jsTrimEnd (replaceCrLf rawText.data))

/-- `updateCustomOptions`: returns (new `bitcoin.conf` contents, returned
string). An empty `userLines` is falsy, so only the banner is written. -/
def updateCustomOptions (rawText : String) : String × String :=
  if normalizeUserLines rawText = "" then
    (BITCOIN_CONF_BANNER ++ "\n", normalizeUserLines rawText)
  else
    (BITCOIN_CONF_BANNER ++ "\n" ++ normalizeUserLines rawText ++ "\n",
     normalizeUserLines rawText)

/-- `getCustomOptions` applied to the contents of `bitcoin.conf`: slice off
the banner when present, strip one leading newline (`.replace(/^\n/, '')`),
trim trailing whitespace. -/
def getCustomOptions (full : String) : String :=
  if jsStartsWith full BITCOIN_CONF_BANNER then
    match (full.data.drop BITCOIN_CONF_BANNER.length) with
    | '\n' :: rest => String.mk (jsTrimEnd rest)
    | other => String.mk (jsTrimEnd other)
  else
    match full.data with
    | '\n' :: rest => String.mk (jsTrimEnd rest)
    | other => String.mk (jsTrimEnd other)

theorem dropWhile_dropWhile (p : Char → Bool) :
    ∀ l : List Char, List.dropWhile p (List.dropWhile p l) = List.dropWhile p l := by
  intro l
  induction l with
  | nil => rfl
  | cons a t ih =>
    by_cases h : p a = true
    · rw [List.dropWhile_cons_of_pos h, ih]
    · have hf : p a = false := by
        cases hb : p a
        · rfl
        · exact absurd hb h
      rw [List.dropWhile_cons_of_neg (by rw [hf]; exact Bool.false_ne_true)]
      rw [List.dropWhile_cons_of_neg (by rw [hf]; exact Bool.false_ne_true)]

theorem jsTrimEnd_append_newline (l : List Char) : jsTrimEnd (l ++ ['\n']) = jsTrimEnd l := by
  unfold jsTrimEnd
  rw [List.reverse_append]
  show (List.dropWhile isJsWhitespace ('\n' :: l.reverse)).reverse = _
  rw [List.dropWhile_cons_of_pos (by decide)]

theorem jsTrimEnd_idem (l : List Char) : jsTrimEnd (jsTrimEnd l) = jsTrimEnd l := by
  unfold jsTrimEnd
  rw [List.reverse_reverse, dropWhile_dropWhile]

/-- C10: after `updateCustomOptions(t)`, `getCustomOptions` returns the
normalization of `t` (CRLF → LF, trailing whitespace trimmed), which is also
what `updateCustomOptions` itself returns; hence the two operations compose
to the normalization, and the round trip is the identity on already
normalized text. -/
theorem customOptions_roundtrip (t : String) :
    (updateCustomOptions t).2 = normalizeUserLines t ∧
    getCustomOptions (updateCustomOptions t).1 = normalizeUserLines t ∧
    (normalizeUserLines t = t → getCustomOptions (updateCustomOptions t).1 = t) := by
  have hmain : getCustomOptions (updateCustomOptions t).1 = normalizeUserLines t := by
    by_cases hu : normalizeUserLines t = ""
    · unfold updateCustomOptions
      rw [if_pos hu, hu]
      decide
    · unfold updateCustomOptions
      rw [if_neg hu]
      unfold getCustomOptions
      have hpref : jsStartsWith (BITCOIN_CONF_BANNER ++ "\n" ++ normalizeUserLines t ++ "\n")
          BITCOIN_CONF_BANNER = true := by
        rw [strAppend_assoc, strAppend_assoc]
        exact jsStartsWith_self_append _ _
      rw [if_pos hpref]
      have hdata : (BITCOIN_CONF_BANNER ++ "\n" ++ normalizeUserLines t ++ "\n").data =
          BITCOIN_CONF_BANNER.data ++ ('\n' :: ((normalizeUserLines t).data ++ ['\n'])) := by
        simp only [String.data_append, List.append_assoc]
        rfl
      rw [hdata]
      have hdrop : (BITCOIN_CONF_BANNER.data ++
            ('\n' :: ((normalizeUserLines t).data ++ ['\n']))).drop BITCOIN_CONF_BANNER.length =
          '\n' :: ((normalizeUserLines t).data ++ ['\n']) := List.drop_left _ _
      rw [hdrop]
      show String.mk (jsTrimEnd ((normalizeUserLines t).data ++ ['\n'])) = normalizeUserLines t
      rw [jsTrimEnd_append_newline]
      have hfix : jsTrimEnd (normalizeUserLines t).data = (normalizeUserLines t).data := by
        show jsTrimEnd (jsTrimEnd (replaceCrLf t.data)) = _
        rw [jsTrimEnd_idem]
        rfl
      rw [hfix]
  refine ⟨?_, hmain, fun h => hmain.trans h⟩
  unfold updateCustomOptions
  split_ifs <;> rfl

/-- Witness for C10 at a concrete, already-normalized text. -/
theorem customOptions_roundtrip_witness :
    getCustomOptions (updateCustomOptions "maxmempool=500").1 = "maxmempool=500" :=
  (customOptions_roundtrip "maxmempool=500").2.2 (by decide)
